import Mathlib

/-!
Shallow embedding of the `onbuild` build strategy
(`pkg/build/strategies/onbuild/onbuild.go`).

The strategy orchestrates five phases over a caller-supplied request:
preparation (image pull, temp dir, source acquisition), Dockerfile
synthesis, packaging into a tar stream, the engine build call, and
cleanup.  The four injected collaborators (docker client, git client,
filesystem, tar packager) are modelled by an `Env` of outcome functions;
every collaborator call is additionally recorded as an `Event` in a
trace, and a simple set of existing directories models the filesystem
state that `CreateWorkingDirectory` / `RemoveDirectory` touch.
-/

namespace OnBuild

/-- Embedding of the fields of `api.Request` read or written by the
onbuild strategy (`Source`, `Ref`, `BaseImage`, `Tag`, `ForcePull`,
`PreserveWorkingDir`, and the mutable `WorkingDir`). -/
structure Request where
  Source : String
  Ref : String
  BaseImage : String
  Tag : String
  ForcePull : Bool
  PreserveWorkingDir : Bool
  WorkingDir : String
deriving DecidableEq, Repr

/-- Embedding of the fields of `api.Result` populated by `Build`. -/
structure Result where
  Success : Bool
  WorkingDir : String
  ImageID : String
deriving DecidableEq, Repr

/-- Embedding of `docker.BuildImageOptions` as filled in by `Build`:
`Name` is the target image name, `Stdin` identifies the tar stream
(`Stdout` is the process stdout and carries no information here). -/
structure BuildImageOptions where
  Name : String
  Stdin : String
deriving DecidableEq, Repr

/-- One collaborator invocation made by the strategy, with its
arguments; `SetWorkingDir` additionally records the one assignment
`request.WorkingDir = tempDir` performed by `Prepare`. -/
inductive Event where
  | PullImage (image : String)
  | CheckAndPull (image : String)
  | CreateWorkingDirectory
  | SetWorkingDir (dir : String)
  | ValidCloneSpec (source : String)
  | Copy (src dst : String)
  | Clone (source dst : String)
  | Checkout (dir ref : String)
  | GuessEntrypoint (dir : String)
  | WriteFile (path content : String)
  | CreateTarFile (dir tarDir : String)
  | FsOpen (path : String)
  | BuildImage (opts : BuildImageOptions)
  | RemoveDirectory (path : String)
deriving DecidableEq, Repr

/-- The mutable context of one strategy invocation: the request (whose
`WorkingDir` field is written back by `Prepare`), the trace of
collaborator calls made so far, and the set of directories that
currently exist on disk. -/
structure RunState where
  req : Request
  trace : List Event
  dirs : List String
deriving DecidableEq, Repr

/-- Outcomes of the injected collaborators (docker, git, filesystem,
tar packager and the entrypoint-inference helper), one field per
external call the strategy makes. -/
structure Env where
  PullImage : String → Except String Unit
  CheckAndPull : String → Except String Unit
  CreateWorkingDirectory : Except String String
  ValidCloneSpec : String → Bool
  Copy : String → String → Except String Unit
  Clone : String → String → Except String Unit
  Checkout : String → String → Except String Unit
  GuessEntrypoint : String → Except String String
  WriteFile : String → String → Except String Unit
  CreateTarFile : String → String → Except String String
  FsOpen : String → Except String String
  BuildImage : BuildImageOptions → Except String Unit
  RemoveDirectory : String → Except String Unit

/-- `filepath.Join` on clean relative components: join with `/`. -/
def filepathJoin (parts : List String) : String :=
  String.intercalate "/" parts

/-- Embedding of `(b *OnBuild) Prepare`: pull (or check-and-pull) the
base image with the outcome discarded, create the working directory and
assign it into the request, then acquire the source by `Copy` when the
locator is not a valid clone spec, and otherwise by `Clone` followed by
`Checkout` when a ref was supplied.  Returns the updated state and the
returned error (`none` = nil). -/
def Prepare (env : Env) (s : RunState) : RunState × Option String :=
  let s :=
    if s.req.ForcePull then
      let _ := env.PullImage s.req.BaseImage
      { s with trace := s.trace ++ [Event.PullImage s.req.BaseImage] }
    else
      let _ := env.CheckAndPull s.req.BaseImage
      { s with trace := s.trace ++ [Event.CheckAndPull s.req.BaseImage] }
  let s := { s with trace := s.trace ++ [Event.CreateWorkingDirectory] }
  match env.CreateWorkingDirectory with
  | .error e => (s, some e)
  | .ok tempDir =>
    let s := { s with
      req := { s.req with WorkingDir := tempDir },
      trace := s.trace ++ [Event.SetWorkingDir tempDir],
      dirs := tempDir :: s.dirs }
    let targetSourceDir := filepathJoin [s.req.WorkingDir, "upload", "src"]
    let s := { s with trace := s.trace ++ [Event.ValidCloneSpec s.req.Source] }
    if !env.ValidCloneSpec s.req.Source then
      let s := { s with trace := s.trace ++ [Event.Copy s.req.Source targetSourceDir] }
      match env.Copy s.req.Source targetSourceDir with
      | .error e => (s, some e)
      | .ok _ => (s, none)
    else
      let s := { s with trace := s.trace ++ [Event.Clone s.req.Source targetSourceDir] }
      match env.Clone s.req.Source targetSourceDir with
      | .error e => (s, some e)
      | .ok _ =>
        if s.req.Ref.length = 0 then (s, none)
        else
          let s := { s with trace := s.trace ++ [Event.Checkout targetSourceDir s.req.Ref] }
          match env.Checkout targetSourceDir s.req.Ref with
          | .error e => (s, some e)
          | .ok _ => (s, none)

/-- Embedding of `(b *OnBuild) CreateDockerfile`: build the two-line
Dockerfile text (`FROM <baseImage>\n` then `CMD ["<entrypoint>"]\n`,
the entrypoint obtained from `GuessEntrypoint` over the upload dir) and
write it to `<workingDir>/upload/src/Dockerfile`. -/
def CreateDockerfile (env : Env) (s : RunState) : RunState × Option String :=
  let uploadDir := filepathJoin [s.req.WorkingDir, "upload", "src"]
  let buffer := "FROM " ++ s.req.BaseImage ++ "\n"
  let s := { s with trace := s.trace ++ [Event.GuessEntrypoint uploadDir] }
  match env.GuessEntrypoint uploadDir with
  | .error e => (s, some e)
  | .ok entrypoint =>
    let buffer := buffer ++ "CMD [\"" ++ entrypoint ++ "\"]" ++ "\n"
    let path := filepathJoin [uploadDir, "Dockerfile"]
    let s := { s with trace := s.trace ++ [Event.WriteFile path buffer] }
    match env.WriteFile path buffer with
    | .error e => (s, some e)
    | .ok _ => (s, none)

/-- Embedding of `(b *OnBuild) SourceTar`: create the tar file over
`(request.WorkingDir, <workingDir>/upload/src)` and open it; the
returned `String` stands for the opened read stream. -/
def SourceTar (env : Env) (s : RunState) : RunState × Except String String :=
  let uploadDir := filepathJoin [s.req.WorkingDir, "upload", "src"]
  let s := { s with trace := s.trace ++ [Event.CreateTarFile s.req.WorkingDir uploadDir] }
  match env.CreateTarFile s.req.WorkingDir uploadDir with
  | .error e => (s, .error e)
  | .ok tarFileName =>
    let s := { s with trace := s.trace ++ [Event.FsOpen tarFileName] }
    match env.FsOpen tarFileName with
    | .error e => (s, .error e)
    | .ok stream => (s, .ok stream)

/-- Embedding of `(b *OnBuild) Cleanup`: a no-op when
`PreserveWorkingDir` is set, otherwise invoke `RemoveDirectory` on
`request.WorkingDir`, discarding its error (the directory is removed
from the existing set only when the call succeeds). -/
def Cleanup (env : Env) (s : RunState) : RunState :=
  if s.req.PreserveWorkingDir then s
  else
    let s := { s with trace := s.trace ++ [Event.RemoveDirectory s.req.WorkingDir] }
    match env.RemoveDirectory s.req.WorkingDir with
    | .ok _ => { s with dirs := s.dirs.erase s.req.WorkingDir }
    | .error _ => s

/-- Embedding of `(b *OnBuild) Build`: run `Prepare`,
`CreateDockerfile`, `SourceTar` and the engine `BuildImage` call in
sequence, returning `(nil, err)` at the first failure; on success run
`Cleanup` and return the `Result` with `Success = true`,
`WorkingDir = request.WorkingDir` and `ImageID = opts.Name`. -/
def Build (env : Env) (s : RunState) : RunState × Option Result × Option String :=
  match Prepare env s with
  | (s1, some e) => (s1, none, some e)
  | (s1, none) =>
    match CreateDockerfile env s1 with
    | (s2, some e) => (s2, none, some e)
    | (s2, none) =>
      match SourceTar env s2 with
      | (s3, .error e) => (s3, none, some e)
      | (s3, .ok tarStream) =>
        let opts : BuildImageOptions := { Name := s3.req.Tag, Stdin := tarStream }
        let s4 := { s3 with trace := s3.trace ++ [Event.BuildImage opts] }
        match env.BuildImage opts with
        | .error e => (s4, none, some e)
        | .ok _ =>
          let s5 := Cleanup env s4
          (s5, some { Success := true, WorkingDir := s5.req.WorkingDir, ImageID := opts.Name }, none)

/-- Whether an event is the `RemoveDirectory` collaborator call. -/
def Event.isRemove : Event → Bool
  | .RemoveDirectory _ => true
  | _ => false

/-- Whether an event is the assignment to `request.WorkingDir`. -/
def Event.isSetWD : Event → Bool
  | .SetWorkingDir _ => true
  | _ => false

/-- Whether an event of the descriptor-synthesis or packaging phases
derives its path arguments from the working directory `d`; events that
do not read `request.WorkingDir` satisfy it trivially. -/
def Event.usesDir (d : String) : Event → Bool
  | .GuessEntrypoint p => p == filepathJoin [d, "upload", "src"]
  | .WriteFile p _ =>
      p == filepathJoin [filepathJoin [d, "upload", "src"], "Dockerfile"]
  | .CreateTarFile w u => w == d && u == filepathJoin [d, "upload", "src"]
  | _ => true

/-- Number of newline characters, i.e. the number of
newline-terminated lines of a text file's content. -/
def countLines (s : String) : Nat :=
  s.data.count '\n'

end OnBuild

/-! ### Phase-level facts used to settle the claims -/

namespace OnBuild

theorem Prepare_req (env : Env) (s : RunState) :
    (Prepare env s).1.req = { s.req with WorkingDir := (Prepare env s).1.req.WorkingDir } := by
  unfold Prepare
  repeat' first | split | dsimp only
  all_goals rfl

theorem CreateDockerfile_req (env : Env) (s : RunState) :
    (CreateDockerfile env s).1.req = s.req := by
  unfold CreateDockerfile
  repeat' first | split | dsimp only
  all_goals rfl

theorem SourceTar_req (env : Env) (s : RunState) :
    (SourceTar env s).1.req = s.req := by
  unfold SourceTar
  repeat' first | split | dsimp only
  all_goals rfl

theorem Cleanup_req (env : Env) (s : RunState) :
    (Cleanup env s).req = s.req := by
  unfold Cleanup
  repeat' first | split | dsimp only
  all_goals rfl

theorem Cleanup_preserve (env : Env) {s : RunState}
    (h : s.req.PreserveWorkingDir = true) : Cleanup env s = s := by
  simp [Cleanup, h]

theorem Cleanup_noPreserve (env : Env) {s : RunState}
    (h : s.req.PreserveWorkingDir = false) :
    (Cleanup env s).trace = s.trace ++ [Event.RemoveDirectory s.req.WorkingDir] ∧
    (env.RemoveDirectory s.req.WorkingDir = .ok () → (Cleanup env s).dirs = s.dirs.erase s.req.WorkingDir) ∧
    (∀ e, env.RemoveDirectory s.req.WorkingDir = .error e → (Cleanup env s).dirs = s.dirs) := by
  cases hR : env.RemoveDirectory s.req.WorkingDir <;> simp [Cleanup, h, hR]

theorem Prepare_remove_count (env : Env) (s : RunState) :
    (Prepare env s).1.trace.countP (Event.isRemove ·) = s.trace.countP (Event.isRemove ·) := by
  unfold Prepare
  repeat' first | split | dsimp only
  all_goals simp [List.countP_append, Event.isRemove]

theorem CreateDockerfile_remove_count (env : Env) (s : RunState) :
    (CreateDockerfile env s).1.trace.countP (Event.isRemove ·) = s.trace.countP (Event.isRemove ·) := by
  unfold CreateDockerfile
  repeat' first | split | dsimp only
  all_goals simp [List.countP_append, Event.isRemove]

theorem SourceTar_remove_count (env : Env) (s : RunState) :
    (SourceTar env s).1.trace.countP (Event.isRemove ·) = s.trace.countP (Event.isRemove ·) := by
  unfold SourceTar
  repeat' first | split | dsimp only
  all_goals simp [List.countP_append, Event.isRemove]

theorem Prepare_dirs_ok {env : Env} {d : String} (s : RunState)
    (h : env.CreateWorkingDirectory = .ok d) :
    (Prepare env s).1.dirs = d :: s.dirs := by
  unfold Prepare
  repeat' first | split | dsimp only
  all_goals simp_all

theorem Prepare_dirs_err {env : Env} {e : String} (s : RunState)
    (h : env.CreateWorkingDirectory = .error e) :
    (Prepare env s).1.dirs = s.dirs := by
  unfold Prepare
  repeat' first | split | dsimp only
  all_goals simp_all

theorem Prepare_wd_ok {env : Env} {d : String} (s : RunState)
    (h : env.CreateWorkingDirectory = .ok d) :
    (Prepare env s).1.req.WorkingDir = d := by
  unfold Prepare
  repeat' first | split | dsimp only
  all_goals simp_all

theorem CreateDockerfile_dirs (env : Env) (s : RunState) :
    (CreateDockerfile env s).1.dirs = s.dirs := by
  unfold CreateDockerfile
  repeat' first | split | dsimp only
  all_goals rfl

theorem SourceTar_dirs (env : Env) (s : RunState) :
    (SourceTar env s).1.dirs = s.dirs := by
  unfold SourceTar
  repeat' first | split | dsimp only
  all_goals rfl

end OnBuild

/-! ### Build-level dispatch and inversion -/

namespace OnBuild

theorem Build_prepare_error {env : Env} {s s1 : RunState} {e : String}
    (h : Prepare env s = (s1, some e)) :
    Build env s = (s1, none, some e) := by
  simp [Build, h]

theorem Build_dockerfile_error {env : Env} {s s1 s2 : RunState} {e : String}
    (h1 : Prepare env s = (s1, none)) (h2 : CreateDockerfile env s1 = (s2, some e)) :
    Build env s = (s2, none, some e) := by
  simp [Build, h1, h2]

theorem Build_tar_error {env : Env} {s s1 s2 s3 : RunState} {e : String}
    (h1 : Prepare env s = (s1, none)) (h2 : CreateDockerfile env s1 = (s2, none))
    (h3 : SourceTar env s2 = (s3, .error e)) :
    Build env s = (s3, none, some e) := by
  simp [Build, h1, h2, h3]

theorem Build_image_error {env : Env} {s s1 s2 s3 : RunState} {t e : String}
    (h1 : Prepare env s = (s1, none)) (h2 : CreateDockerfile env s1 = (s2, none))
    (h3 : SourceTar env s2 = (s3, .ok t))
    (h4 : env.BuildImage { Name := s3.req.Tag, Stdin := t } = .error e) :
    Build env s =
      ({ s3 with trace := s3.trace ++ [Event.BuildImage { Name := s3.req.Tag, Stdin := t }] },
        none, some e) := by
  simp [Build, h1, h2, h3, h4]

theorem Build_success_eq {env : Env} {s s1 s2 s3 : RunState} {t : String}
    (h1 : Prepare env s = (s1, none)) (h2 : CreateDockerfile env s1 = (s2, none))
    (h3 : SourceTar env s2 = (s3, .ok t))
    (h4 : env.BuildImage { Name := s3.req.Tag, Stdin := t } = .ok ()) :
    Build env s =
      (Cleanup env { s3 with trace := s3.trace ++ [Event.BuildImage { Name := s3.req.Tag, Stdin := t }] },
        some { Success := true,
               WorkingDir := (Cleanup env { s3 with trace := s3.trace ++ [Event.BuildImage { Name := s3.req.Tag, Stdin := t }] }).req.WorkingDir,
               ImageID := s3.req.Tag },
        none) := by
  simp [Build, h1, h2, h3, h4]

theorem Build_no_partial (env : Env) (s : RunState) :
    (Build env s).2.1 = none ∨ (Build env s).2.2 = none := by
  unfold Build
  (repeat' split) <;> dsimp only <;> (repeat' split) <;> simp

theorem Build_some_inv {env : Env} {s : RunState} {r : Result}
    (h : (Build env s).2.1 = some r) :
    ∃ s1 s2 s3 t, Prepare env s = (s1, none) ∧ CreateDockerfile env s1 = (s2, none) ∧
      SourceTar env s2 = (s3, .ok t) ∧
      env.BuildImage { Name := s3.req.Tag, Stdin := t } = .ok () ∧
      Build env s =
        (Cleanup env { s3 with trace := s3.trace ++ [Event.BuildImage { Name := s3.req.Tag, Stdin := t }] },
          some r, none) ∧
      r = { Success := true,
            WorkingDir := (Cleanup env { s3 with trace := s3.trace ++ [Event.BuildImage { Name := s3.req.Tag, Stdin := t }] }).req.WorkingDir,
            ImageID := s3.req.Tag } := by
  unfold Build at h ⊢
  (repeat' split at h) <;> try (dsimp only at h; (repeat' split at h))
  all_goals simp_all
  all_goals exact ⟨_, _, ⟨rfl, rfl⟩, by assumption, rfl, h.symm⟩

theorem Build_req (env : Env) (s : RunState) :
    (Build env s).1.req = { s.req with WorkingDir := (Build env s).1.req.WorkingDir } := by
  rcases hP : Prepare env s with ⟨s1, e1⟩
  have h1 : s1.req = { s.req with WorkingDir := s1.req.WorkingDir } := by
    have := Prepare_req env s
    rw [hP] at this
    exact this
  cases e1 with
  | some e => rw [Build_prepare_error hP]; exact h1
  | none =>
    rcases hD : CreateDockerfile env s1 with ⟨s2, e2⟩
    have h2 : s2.req = s1.req := by
      have := CreateDockerfile_req env s1
      rw [hD] at this
      exact this
    cases e2 with
    | some e => rw [Build_dockerfile_error hP hD]; rw [h2]; exact h1
    | none =>
      rcases hT : SourceTar env s2 with ⟨s3, r3⟩
      have h3 : s3.req = s2.req := by
        have := SourceTar_req env s2
        rw [hT] at this
        exact this
      cases r3 with
      | error e => rw [Build_tar_error hP hD hT]; rw [h3, h2]; exact h1
      | ok t =>
        cases hB : env.BuildImage { Name := s3.req.Tag, Stdin := t } with
        | error e =>
          rw [Build_image_error hP hD hT hB]
          dsimp only
          rw [h3, h2]; exact h1
        | ok u =>
          cases u
          rw [Build_success_eq hP hD hT hB]
          dsimp only
          rw [Cleanup_req]
          dsimp only
          rw [h3, h2]; exact h1

end OnBuild

namespace OnBuild

/-- The error returned by a fallible collaborator call, as an optional error. -/
def errOf : Except String Unit → Option String
  | .ok _ => none
  | .error e => some e

theorem Prepare_run {env : Env} {d : String} {s : RunState}
    (hd : env.CreateWorkingDirectory = .ok d) (ht : s.trace = []) :
    (env.ValidCloneSpec s.req.Source = false ∧
      (Prepare env s).1.trace =
        [(if s.req.ForcePull then Event.PullImage s.req.BaseImage else Event.CheckAndPull s.req.BaseImage),
          Event.CreateWorkingDirectory, Event.SetWorkingDir d, Event.ValidCloneSpec s.req.Source,
          Event.Copy s.req.Source (filepathJoin [d, "upload", "src"])] ∧
      (Prepare env s).2 = errOf (env.Copy s.req.Source (filepathJoin [d, "upload", "src"]))) ∨
    (env.ValidCloneSpec s.req.Source = true ∧
      (∃ e, env.Clone s.req.Source (filepathJoin [d, "upload", "src"]) = .error e) ∧
      (Prepare env s).1.trace =
        [(if s.req.ForcePull then Event.PullImage s.req.BaseImage else Event.CheckAndPull s.req.BaseImage),
          Event.CreateWorkingDirectory, Event.SetWorkingDir d, Event.ValidCloneSpec s.req.Source,
          Event.Clone s.req.Source (filepathJoin [d, "upload", "src"])] ∧
      (Prepare env s).2 = errOf (env.Clone s.req.Source (filepathJoin [d, "upload", "src"]))) ∨
    (env.ValidCloneSpec s.req.Source = true ∧
      env.Clone s.req.Source (filepathJoin [d, "upload", "src"]) = .ok () ∧ s.req.Ref.length = 0 ∧
      (Prepare env s).1.trace =
        [(if s.req.ForcePull then Event.PullImage s.req.BaseImage else Event.CheckAndPull s.req.BaseImage),
          Event.CreateWorkingDirectory, Event.SetWorkingDir d, Event.ValidCloneSpec s.req.Source,
          Event.Clone s.req.Source (filepathJoin [d, "upload", "src"])] ∧
      (Prepare env s).2 = none) ∨
    (env.ValidCloneSpec s.req.Source = true ∧
      env.Clone s.req.Source (filepathJoin [d, "upload", "src"]) = .ok () ∧ s.req.Ref.length ≠ 0 ∧
      (Prepare env s).1.trace =
        [(if s.req.ForcePull then Event.PullImage s.req.BaseImage else Event.CheckAndPull s.req.BaseImage),
          Event.CreateWorkingDirectory, Event.SetWorkingDir d, Event.ValidCloneSpec s.req.Source,
          Event.Clone s.req.Source (filepathJoin [d, "upload", "src"]),
          Event.Checkout (filepathJoin [d, "upload", "src"]) s.req.Ref] ∧
      (Prepare env s).2 = errOf (env.Checkout (filepathJoin [d, "upload", "src"]) s.req.Ref)) := by
  unfold Prepare
  repeat' first | split | dsimp only
  all_goals simp_all [errOf]

end OnBuild

namespace OnBuild

theorem CreateDockerfile_trace (env : Env) (s : RunState) :
    ∃ t, (CreateDockerfile env s).1.trace = s.trace ++ t ∧
      t.all (fun e => !(Event.isSetWD e) && Event.usesDir s.req.WorkingDir e) = true := by
  unfold CreateDockerfile
  repeat' first | split | dsimp only
  all_goals try simp only [List.append_assoc]
  all_goals refine ⟨_, rfl, ?_⟩
  all_goals simp [Event.usesDir, Event.isSetWD]

theorem SourceTar_trace (env : Env) (s : RunState) :
    ∃ t, (SourceTar env s).1.trace = s.trace ++ t ∧
      t.all (fun e => !(Event.isSetWD e) && Event.usesDir s.req.WorkingDir e) = true := by
  unfold SourceTar
  repeat' first | split | dsimp only
  all_goals try simp only [List.append_assoc]
  all_goals refine ⟨_, rfl, ?_⟩
  all_goals simp [Event.usesDir, Event.isSetWD]

theorem Cleanup_trace (env : Env) (s : RunState) :
    ∃ t, (Cleanup env s).trace = s.trace ++ t ∧
      t.all (fun e => !(Event.isSetWD e) && Event.usesDir s.req.WorkingDir e) = true := by
  unfold Cleanup
  repeat' first | split | dsimp only
  all_goals try simp only [List.append_assoc]
  all_goals first
    | (refine ⟨_, rfl, ?_⟩; simp [Event.usesDir, Event.isSetWD])
    | exact ⟨[], (List.append_nil _).symm, rfl⟩

end OnBuild

/-! ### Concrete collaborators and requests used for witnesses and
counterexamples -/

namespace OnBuild

/-- A request whose source is a plain filesystem path (not a clone
spec), with no ref, not preserving the working directory. -/
def localReq : Request :=
  { Source := "/tmp/app", Ref := "", BaseImage := "base:latest", Tag := "out:1",
    ForcePull := false, PreserveWorkingDir := false, WorkingDir := "" }

/-- A request whose source is a valid clone spec with a ref. -/
def gitReq : Request :=
  { localReq with Source := "git://example.com/app.git", Ref := "v1" }

/-- The state at the start of a build invocation: the caller's request,
no calls made yet, no directories created yet. -/
def initState (req : Request) : RunState :=
  { req := req, trace := [], dirs := [] }

/-- Collaborator outcomes where every call succeeds. -/
def okEnv : Env :=
  { PullImage := fun _ => .ok (), CheckAndPull := fun _ => .ok (),
    CreateWorkingDirectory := .ok "/tmp/sti001",
    ValidCloneSpec := fun src => src == "git://example.com/app.git",
    Copy := fun _ _ => .ok (), Clone := fun _ _ => .ok (), Checkout := fun _ _ => .ok (),
    GuessEntrypoint := fun _ => .ok "run.sh", WriteFile := fun _ _ => .ok (),
    CreateTarFile := fun _ _ => .ok "/tmp/sti001.tar", FsOpen := fun p => .ok p,
    BuildImage := fun _ => .ok (), RemoveDirectory := fun _ => .ok () }

/-- Like `okEnv` but the check-and-pull call on the base image fails. -/
def pullFailEnv : Env := { okEnv with CheckAndPull := fun _ => .error "pull failed" }

/-- Like `okEnv` but the engine build call fails. -/
def buildFailEnv : Env := { okEnv with BuildImage := fun _ => .error "build error" }

/-- Like `okEnv` but entrypoint inference fails. -/
def guessFailEnv : Env := { okEnv with GuessEntrypoint := fun _ => .error "no entrypoint" }

end OnBuild

/-! ### The claims -/

namespace OnBuild

/-- C2, counterexample: with `forcePull = false` a failing
check-and-pull call is not fatal: its result is discarded and `Build`
runs every remaining phase and returns a success result, contradicting
the claim that the failure aborts the build. -/
theorem claim2_pull_counterexample :
    localReq.ForcePull = false ∧
    pullFailEnv.CheckAndPull localReq.BaseImage = .error "pull failed" ∧
    (Build pullFailEnv (initState localReq)).2.2 = none ∧
    (Build pullFailEnv (initState localReq)).2.1 =
      some { Success := true, WorkingDir := "/tmp/sti001", ImageID := "out:1" } ∧
    Event.BuildImage { Name := "out:1", Stdin := "/tmp/sti001.tar" }
      ∈ (Build pullFailEnv (initState localReq)).1.trace :=
  ⟨rfl, rfl, rfl, rfl, by decide⟩

/-- C2, amended: the source discards the results of both
`docker.PullImage` and `docker.CheckAndPull`, so no pull failure —
forced or not — is fatal: `Build` behaves identically whatever either
pull call returns, and the remaining phases always execute. -/
theorem claim2_pull_amended (env : Env) (f g : String → Except String Unit)
    (s : RunState) :
    Build { env with PullImage := f, CheckAndPull := g } s = Build env s := rfl

/-- C9: `Build` leaves every request field other than `WorkingDir`
unchanged: `Source`, `Ref`, `BaseImage`, `Tag`, `ForcePull` and
`PreserveWorkingDir` have the same values after `Build` returns as
before. -/
theorem claim9_request_frame (env : Env) (s : RunState) :
    (Build env s).1.req.Source = s.req.Source ∧
    (Build env s).1.req.Ref = s.req.Ref ∧
    (Build env s).1.req.BaseImage = s.req.BaseImage ∧
    (Build env s).1.req.Tag = s.req.Tag ∧
    (Build env s).1.req.ForcePull = s.req.ForcePull ∧
    (Build env s).1.req.PreserveWorkingDir = s.req.PreserveWorkingDir := by
  have h := Build_req env s
  refine ⟨?_, ?_, ?_, ?_, ?_, ?_⟩ <;> rw [h]

end OnBuild

namespace OnBuild

theorem Prepare_none_inv {env : Env} {s s1 : RunState}
    (h : Prepare env s = (s1, none)) :
    env.CreateWorkingDirectory = .ok s1.req.WorkingDir := by
  unfold Prepare at h
  repeat' first | split at h | dsimp only at h
  all_goals try injection h with hA hB
  all_goals try subst hA
  all_goals simp_all

/-- C4: every phase failure from preparation through the engine build
call makes `Build` return that underlying error with a nil result; a
result is returned only without an error and with `Success = true`. -/
theorem claim4_fatal_errors (env : Env) (s : RunState) :
    ((Build env s).2.2 ≠ none → (Build env s).2.1 = none) ∧
    (∀ r, (Build env s).2.1 = some r → (Build env s).2.2 = none ∧ r.Success = true) ∧
    (∀ s1 e, Prepare env s = (s1, some e) → Build env s = (s1, none, some e)) ∧
    (∀ s1 s2 e, Prepare env s = (s1, none) → CreateDockerfile env s1 = (s2, some e) →
      Build env s = (s2, none, some e)) ∧
    (∀ s1 s2 s3 e, Prepare env s = (s1, none) → CreateDockerfile env s1 = (s2, none) →
      SourceTar env s2 = (s3, .error e) → Build env s = (s3, none, some e)) ∧
    (∀ s1 s2 s3 t e, Prepare env s = (s1, none) → CreateDockerfile env s1 = (s2, none) →
      SourceTar env s2 = (s3, .ok t) →
      env.BuildImage { Name := s3.req.Tag, Stdin := t } = .error e →
      (Build env s).2.1 = none ∧ (Build env s).2.2 = some e) := by
  refine ⟨?_, ?_, ?_, ?_, ?_, ?_⟩
  · intro h
    rcases Build_no_partial env s with h1 | h1
    · exact h1
    · exact absurd h1 h
  · intro r h
    obtain ⟨s1, s2, s3, t, hP, hD, hT, hB, hEq, hr⟩ := Build_some_inv h
    exact ⟨by rw [hEq], by rw [hr]⟩
  · intro s1 e h
    exact Build_prepare_error h
  · intro s1 s2 e h1 h2
    exact Build_dockerfile_error h1 h2
  · intro s1 s2 s3 e h1 h2 h3
    exact Build_tar_error h1 h2 h3
  · intro s1 s2 s3 t e h1 h2 h3 h4
    rw [Build_image_error h1 h2 h3 h4]
    exact ⟨rfl, rfl⟩

/-- C4 witness: with failing entrypoint inference, `Build` on the
local-path request returns exactly the inference error and no result. -/
theorem claim4_witness :
    Prepare guessFailEnv (initState localReq) =
      ((Prepare guessFailEnv (initState localReq)).1, none) ∧
    CreateDockerfile guessFailEnv (Prepare guessFailEnv (initState localReq)).1 =
      ((CreateDockerfile guessFailEnv (Prepare guessFailEnv (initState localReq)).1).1,
        some "no entrypoint") ∧
    Build guessFailEnv (initState localReq) =
      ((CreateDockerfile guessFailEnv (Prepare guessFailEnv (initState localReq)).1).1,
        none, some "no entrypoint") :=
  ⟨rfl, rfl,
    (claim4_fatal_errors guessFailEnv (initState localReq)).2.2.2.1 _ _ "no entrypoint" rfl rfl⟩

/-- C7: whenever `Build` returns a result, it has `Success = true` and
`ImageID` equal to the requested tag, and the engine was invoked with
target image name equal to that tag. -/
theorem claim7_success_tag (env : Env) (s : RunState) (r : Result)
    (h : (Build env s).2.1 = some r) :
    r.Success = true ∧ r.ImageID = s.req.Tag ∧
    ∃ t, Event.BuildImage { Name := s.req.Tag, Stdin := t } ∈ (Build env s).1.trace := by
  obtain ⟨s1, s2, s3, t, hP, hD, hT, hB, hEq, hr⟩ := Build_some_inv h
  have h1 : s1.req = { s.req with WorkingDir := s1.req.WorkingDir } := by
    have := Prepare_req env s; rw [hP] at this; exact this
  have h2 : s2.req = s1.req := by
    have := CreateDockerfile_req env s1; rw [hD] at this; exact this
  have h3 : s3.req = s2.req := by
    have := SourceTar_req env s2; rw [hT] at this; exact this
  have tag3 : s3.req.Tag = s.req.Tag := by rw [h3, h2, h1]
  refine ⟨by rw [hr], by rw [hr]; exact tag3, ?_⟩
  obtain ⟨δ, hδ, _⟩ := Cleanup_trace env
    { s3 with trace := s3.trace ++ [Event.BuildImage { Name := s3.req.Tag, Stdin := t }] }
  refine ⟨t, ?_⟩
  rw [hEq]
  dsimp only
  rw [hδ]
  dsimp only
  rw [← tag3]
  simp [List.mem_append]

/-- C7 witness: on the all-success run over the local-path request the
result is `Success = true` with `ImageID` equal to the tag `out:1`. -/
theorem claim7_witness :
    (Build okEnv (initState localReq)).2.1 =
      some { Success := true, WorkingDir := "/tmp/sti001", ImageID := "out:1" } ∧
    ({ Success := true, WorkingDir := "/tmp/sti001", ImageID := "out:1" } : Result).Success = true ∧
    ({ Success := true, WorkingDir := "/tmp/sti001", ImageID := "out:1" } : Result).ImageID =
      (initState localReq).req.Tag ∧
    ∃ t, Event.BuildImage { Name := (initState localReq).req.Tag, Stdin := t }
      ∈ (Build okEnv (initState localReq)).1.trace :=
  ⟨rfl, claim7_success_tag okEnv (initState localReq) _ rfl⟩

/-- C10: whenever `Build` returns a result, its `WorkingDir` field
equals the request's `WorkingDir` field unconditionally; with
`PreserveWorkingDir = false` the removal of that directory was invoked
before the result was assembled, so (removal errors aside) the returned
path no longer exists. -/
theorem claim10_result_workingdir (env : Env) (s : RunState) (r : Result)
    (hdirs : s.dirs = []) (h : (Build env s).2.1 = some r) :
    r.WorkingDir = (Build env s).1.req.WorkingDir ∧
    (s.req.PreserveWorkingDir = false →
      Event.RemoveDirectory r.WorkingDir ∈ (Build env s).1.trace ∧
      (env.RemoveDirectory r.WorkingDir = .ok () → r.WorkingDir ∉ (Build env s).1.dirs)) := by
  obtain ⟨s1, s2, s3, t, hP, hD, hT, hB, hEq, hr⟩ := Build_some_inv h
  have h1 : s1.req = { s.req with WorkingDir := s1.req.WorkingDir } := by
    have := Prepare_req env s; rw [hP] at this; exact this
  have h2 : s2.req = s1.req := by
    have := CreateDockerfile_req env s1; rw [hD] at this; exact this
  have h3 : s3.req = s2.req := by
    have := SourceTar_req env s2; rw [hT] at this; exact this
  have hrw : r.WorkingDir =
      (Cleanup env { s3 with trace := s3.trace ++ [Event.BuildImage { Name := s3.req.Tag, Stdin := t }] }).req.WorkingDir := by
    rw [hr]
  refine ⟨by rw [hrw, hEq], ?_⟩
  intro hPr
  have hwd4 : (Cleanup env { s3 with trace := s3.trace ++ [Event.BuildImage { Name := s3.req.Tag, Stdin := t }] }).req.WorkingDir
      = s3.req.WorkingDir := by rw [Cleanup_req]
  have hPr4 : ({ s3 with trace := s3.trace ++ [Event.BuildImage { Name := s3.req.Tag, Stdin := t }] } : RunState).req.PreserveWorkingDir = false := by
    dsimp only
    rw [h3, h2, h1]
    exact hPr
  obtain ⟨hct, hdok, _⟩ := Cleanup_noPreserve env hPr4
  have hwd : env.CreateWorkingDirectory = .ok s1.req.WorkingDir := Prepare_none_inv hP
  have hd1 : s1.dirs = s1.req.WorkingDir :: s.dirs := by
    have := Prepare_dirs_ok s hwd; rw [hP] at this; exact this
  have hd2 : s2.dirs = s1.dirs := by
    have := CreateDockerfile_dirs env s1; rw [hD] at this; exact this
  have hd3 : s3.dirs = s2.dirs := by
    have := SourceTar_dirs env s2; rw [hT] at this; exact this
  have hwd31 : s3.req.WorkingDir = s1.req.WorkingDir := by rw [h3, h2]
  constructor
  · rw [hrw, hwd4, hEq]
    dsimp only
    rw [hct]
    dsimp only
    simp
  · intro hok
    rw [hrw, hwd4] at hok ⊢
    rw [hEq]
    dsimp only
    rw [hdok hok]
    dsimp only
    rw [hd3, hd2, hd1, hwd31, hdirs]
    simp

/-- C10 witness: on the all-success non-preserving run the returned
`WorkingDir` is the temp directory, its removal is in the trace, and it
no longer exists. -/
theorem claim10_witness :
    (initState localReq).dirs = [] ∧
    (Build okEnv (initState localReq)).2.1 =
      some { Success := true, WorkingDir := "/tmp/sti001", ImageID := "out:1" } ∧
    ({ Success := true, WorkingDir := "/tmp/sti001", ImageID := "out:1" } : Result).WorkingDir =
      (Build okEnv (initState localReq)).1.req.WorkingDir ∧
    ((initState localReq).req.PreserveWorkingDir = false →
      Event.RemoveDirectory "/tmp/sti001" ∈ (Build okEnv (initState localReq)).1.trace ∧
      (okEnv.RemoveDirectory "/tmp/sti001" = .ok () →
        "/tmp/sti001" ∉ (Build okEnv (initState localReq)).1.dirs)) :=
  ⟨rfl, rfl, claim10_result_workingdir okEnv (initState localReq) _ rfl rfl⟩

end OnBuild

namespace OnBuild

theorem length_zero_iff (str : String) : str.length = 0 ↔ str = "" := by
  cases str with
  | mk data => simp [String.length, String.ext_iff]

theorem countLines_append (a b : String) :
    countLines (a ++ b) = countLines a + countLines b := by
  simp [countLines, String.data_append, List.count_append]

/-- C3: whenever entrypoint inference succeeds with `ep`, the file
written by `CreateDockerfile` is `<workingDir>/upload/src/Dockerfile`
and its content is exactly the `FROM <baseImage>` line followed by the
`CMD ["<ep>"]` line, each newline-terminated and nothing else; when
neither the base image nor the entrypoint contains a newline the
content is exactly two lines. -/
theorem claim3_dockerfile_two_lines (env : Env) (s : RunState) (ep : String)
    (h : env.GuessEntrypoint (filepathJoin [s.req.WorkingDir, "upload", "src"]) = .ok ep) :
    Event.WriteFile
        (filepathJoin [filepathJoin [s.req.WorkingDir, "upload", "src"], "Dockerfile"])
        (("FROM " ++ s.req.BaseImage ++ "\n") ++ "CMD [\"" ++ ep ++ "\"]" ++ "\n")
      ∈ (CreateDockerfile env s).1.trace ∧
    (countLines s.req.BaseImage = 0 → countLines ep = 0 →
      countLines (("FROM " ++ s.req.BaseImage ++ "\n") ++ "CMD [\"" ++ ep ++ "\"]" ++ "\n") = 2) := by
  constructor
  · unfold CreateDockerfile
    dsimp only
    rw [h]
    dsimp only
    split <;> simp
  · intro hb he
    simp [countLines_append, hb, he]
    decide

/-- The state as `Prepare` leaves it for the local request under
`okEnv`, abbreviated for use in witnesses. -/
def preparedState : RunState :=
  { req := { localReq with WorkingDir := "/tmp/sti001" }, trace := [], dirs := [] }

/-- C3 witness: with base image `base:latest` and inferred entrypoint
`run.sh` the written descriptor is the concrete two-line Dockerfile. -/
theorem claim3_witness :
    okEnv.GuessEntrypoint (filepathJoin [preparedState.req.WorkingDir, "upload", "src"]) =
      .ok "run.sh" ∧
    (Event.WriteFile "/tmp/sti001/upload/src/Dockerfile" "FROM base:latest\nCMD [\"run.sh\"]\n"
        ∈ (CreateDockerfile okEnv preparedState).1.trace ∧
      (countLines "base:latest" = 0 → countLines "run.sh" = 0 →
        countLines "FROM base:latest\nCMD [\"run.sh\"]\n" = 2)) :=
  ⟨rfl, claim3_dockerfile_two_lines okEnv preparedState "run.sh" rfl⟩

/-- C5: after a successful temp-directory creation, `Prepare` consults
the VCS validity check and performs exactly one source acquisition into
`<workingDir>/upload/src`: a recursive copy and no clone/checkout when
the check rejects the locator, a clone and no copy when it accepts. -/
theorem claim5_source_exclusive (env : Env) (s : RunState) (d : String)
    (hd : env.CreateWorkingDirectory = .ok d) (ht : s.trace = []) :
    Event.ValidCloneSpec s.req.Source ∈ (Prepare env s).1.trace ∧
    (env.ValidCloneSpec s.req.Source = false →
      Event.Copy s.req.Source (filepathJoin [d, "upload", "src"]) ∈ (Prepare env s).1.trace ∧
      (∀ a b, Event.Clone a b ∉ (Prepare env s).1.trace) ∧
      (∀ a b, Event.Checkout a b ∉ (Prepare env s).1.trace)) ∧
    (env.ValidCloneSpec s.req.Source = true →
      Event.Clone s.req.Source (filepathJoin [d, "upload", "src"]) ∈ (Prepare env s).1.trace ∧
      (∀ a b, Event.Copy a b ∉ (Prepare env s).1.trace)) := by
  rcases Prepare_run hd ht with ⟨hv, htr, _⟩ | ⟨hv, _, htr, _⟩ | ⟨hv, _, _, htr, _⟩ |
      ⟨hv, _, _, htr, _⟩ <;>
    cases hF : s.req.ForcePull <;>
    refine ⟨?_, fun hv2 => ⟨?_, fun a b => ?_, fun a b => ?_⟩, fun hv2 => ⟨?_, fun a b => ?_⟩⟩ <;>
    simp_all

/-- C5 witness: the local-path request is rejected by the validity
check, so its source is copied and never cloned or checked out. -/
theorem claim5_witness :
    okEnv.CreateWorkingDirectory = .ok "/tmp/sti001" ∧
    (initState localReq).trace = [] ∧
    (Event.ValidCloneSpec "/tmp/app" ∈ (Prepare okEnv (initState localReq)).1.trace ∧
      (okEnv.ValidCloneSpec "/tmp/app" = false →
        Event.Copy "/tmp/app" "/tmp/sti001/upload/src" ∈ (Prepare okEnv (initState localReq)).1.trace ∧
        (∀ a b, Event.Clone a b ∉ (Prepare okEnv (initState localReq)).1.trace) ∧
        (∀ a b, Event.Checkout a b ∉ (Prepare okEnv (initState localReq)).1.trace)) ∧
      (okEnv.ValidCloneSpec "/tmp/app" = true →
        Event.Clone "/tmp/app" "/tmp/sti001/upload/src" ∈ (Prepare okEnv (initState localReq)).1.trace ∧
        (∀ a b, Event.Copy a b ∉ (Prepare okEnv (initState localReq)).1.trace))) :=
  ⟨rfl, rfl, claim5_source_exclusive okEnv (initState localReq) "/tmp/sti001" rfl rfl⟩

/-- C6: on a valid clone spec, a clone failure is returned as
`Prepare`'s error; with a non-empty ref a checkout follows the clone
and its failure (success) is returned (swallowed into success); with an
empty ref no checkout happens and `Prepare` succeeds. -/
theorem claim6_clone_checkout (env : Env) (s : RunState) (d : String)
    (hv : env.ValidCloneSpec s.req.Source = true)
    (hd : env.CreateWorkingDirectory = .ok d) (ht : s.trace = []) :
    (∀ e, env.Clone s.req.Source (filepathJoin [d, "upload", "src"]) = .error e →
      (Prepare env s).2 = some e) ∧
    (env.Clone s.req.Source (filepathJoin [d, "upload", "src"]) = .ok () → s.req.Ref = "" →
      (Prepare env s).2 = none ∧
      (∀ a b, Event.Checkout a b ∉ (Prepare env s).1.trace)) ∧
    (env.Clone s.req.Source (filepathJoin [d, "upload", "src"]) = .ok () → s.req.Ref ≠ "" →
      (∃ t1, (Prepare env s).1.trace =
          t1 ++ [Event.Clone s.req.Source (filepathJoin [d, "upload", "src"]),
                 Event.Checkout (filepathJoin [d, "upload", "src"]) s.req.Ref]) ∧
      (∀ e, env.Checkout (filepathJoin [d, "upload", "src"]) s.req.Ref = .error e →
        (Prepare env s).2 = some e) ∧
      (env.Checkout (filepathJoin [d, "upload", "src"]) s.req.Ref = .ok () →
        (Prepare env s).2 = none)) := by
  rcases Prepare_run hd ht with ⟨hv0, _, _⟩ | ⟨hv0, hcl, htr, hres⟩ |
      ⟨hv0, hcl, href, htr, hres⟩ | ⟨hv0, hcl, href, htr, hres⟩
  · rw [hv] at hv0; exact absurd hv0 (by simp)
  · obtain ⟨e0, he0⟩ := hcl
    refine ⟨fun e he => ?_, fun hok _ => ?_, fun hok _ => ?_⟩
    · rw [hres, he0]
      rw [he0] at he
      simp_all [errOf]
    · rw [he0] at hok; exact absurd hok (by simp)
    · rw [he0] at hok; exact absurd hok (by simp)
  · refine ⟨fun e he => ?_, fun hok hrefEmpty => ⟨hres, fun a b => ?_⟩, fun hok hrefNe => ?_⟩
    · rw [hcl] at he; exact absurd he (by simp)
    · rw [htr]
      cases hF : s.req.ForcePull <;> simp_all
    · exact absurd ((length_zero_iff s.req.Ref).1 href) hrefNe
  · refine ⟨fun e he => ?_, fun hok hrefEmpty => ?_, fun hok hrefNe => ?_⟩
    · rw [hcl] at he; exact absurd he (by simp)
    · rw [hrefEmpty] at href; exact absurd rfl href
    · refine ⟨⟨[if s.req.ForcePull then Event.PullImage s.req.BaseImage
            else Event.CheckAndPull s.req.BaseImage, Event.CreateWorkingDirectory,
            Event.SetWorkingDir d, Event.ValidCloneSpec s.req.Source], by rw [htr]; rfl⟩,
          fun e he => ?_, fun hcheck => ?_⟩
      · rw [hres, he]; rfl
      · rw [hres, hcheck]; rfl

/-- C6 witness: the git request clones and then checks out ref `v1`,
and `Prepare` succeeds. -/
theorem claim6_witness :
    okEnv.ValidCloneSpec "git://example.com/app.git" = true ∧
    okEnv.CreateWorkingDirectory = .ok "/tmp/sti001" ∧
    (∃ t1, (Prepare okEnv (initState gitReq)).1.trace =
        t1 ++ [Event.Clone "git://example.com/app.git" "/tmp/sti001/upload/src",
               Event.Checkout "/tmp/sti001/upload/src" "v1"]) ∧
    (Prepare okEnv (initState gitReq)).2 = none := by
  have h := claim6_clone_checkout okEnv (initState gitReq) "/tmp/sti001" rfl rfl rfl
  exact ⟨rfl, rfl, (h.2.2 rfl (by decide)).1, (h.2.2 rfl (by decide)).2.2 rfl⟩

end OnBuild

namespace OnBuild

theorem Prepare_trace_shape {env : Env} {d : String} {s : RunState}
    (hd : env.CreateWorkingDirectory = .ok d) (ht : s.trace = []) :
    ∃ t2, (Prepare env s).1.trace =
        (if s.req.ForcePull then Event.PullImage s.req.BaseImage
         else Event.CheckAndPull s.req.BaseImage)
          :: Event.CreateWorkingDirectory :: Event.SetWorkingDir d :: t2 ∧
      t2.all (fun e => !(Event.isSetWD e) && Event.usesDir d e) = true := by
  rcases Prepare_run hd ht with ⟨_, htr, _⟩ | ⟨_, _, htr, _⟩ | ⟨_, _, _, htr, _⟩ |
      ⟨_, _, _, htr, _⟩ <;>
    rw [htr] <;>
    exact ⟨_, rfl, by simp [Event.usesDir, Event.isSetWD]⟩

/-- C8: once the temporary directory `d` has been created,
`request.WorkingDir` is assigned exactly once per run — the single
`SetWorkingDir` event, directly after the pull and the temp-dir
creation — and every later `WorkingDir`-derived read by descriptor
synthesis or packaging (`GuessEntrypoint`, `WriteFile`,
`CreateTarFile`) uses exactly that assigned directory. -/
theorem claim8_workingdir_once (env : Env) (s : RunState) (d : String)
    (hd : env.CreateWorkingDirectory = .ok d) (ht : s.trace = []) :
    ∃ t2, (Build env s).1.trace =
        (if s.req.ForcePull then Event.PullImage s.req.BaseImage
         else Event.CheckAndPull s.req.BaseImage)
          :: Event.CreateWorkingDirectory :: Event.SetWorkingDir d :: t2 ∧
      t2.all (fun e => !(Event.isSetWD e) && Event.usesDir d e) = true := by
  obtain ⟨t2, htr1, hall1⟩ := Prepare_trace_shape hd ht
  rcases hP : Prepare env s with ⟨s1, e1⟩
  rw [hP] at htr1
  have hwd1 : s1.req.WorkingDir = d := by
    have := Prepare_wd_ok s hd; rw [hP] at this; exact this
  cases e1 with
  | some e =>
    rw [Build_prepare_error hP]
    exact ⟨t2, htr1, hall1⟩
  | none =>
    obtain ⟨δ1, hδ1, ha1⟩ := CreateDockerfile_trace env s1
    rw [hwd1] at ha1
    rcases hD : CreateDockerfile env s1 with ⟨s2, e2⟩
    rw [hD] at hδ1
    have h2req : s2.req = s1.req := by
      have := CreateDockerfile_req env s1; rw [hD] at this; exact this
    cases e2 with
    | some e =>
      rw [Build_dockerfile_error hP hD]
      refine ⟨t2 ++ δ1, ?_, ?_⟩
      · rw [hδ1, htr1]; simp
      · simp only [List.all_append, hall1, ha1]; rfl
    | none =>
      obtain ⟨δ2, hδ2, ha2⟩ := SourceTar_trace env s2
      rw [h2req, hwd1] at ha2
      rcases hT : SourceTar env s2 with ⟨s3, r3⟩
      rw [hT] at hδ2
      have h3req : s3.req = s2.req := by
        have := SourceTar_req env s2; rw [hT] at this; exact this
      cases r3 with
      | error e =>
        rw [Build_tar_error hP hD hT]
        refine ⟨t2 ++ δ1 ++ δ2, ?_, ?_⟩
        · rw [hδ2, hδ1, htr1]; simp
        · simp only [List.all_append, hall1, ha1, ha2]; rfl
      | ok t =>
        cases hB : env.BuildImage { Name := s3.req.Tag, Stdin := t } with
        | error e =>
          rw [Build_image_error hP hD hT hB]
          dsimp only
          refine ⟨t2 ++ δ1 ++ δ2 ++ [Event.BuildImage { Name := s3.req.Tag, Stdin := t }], ?_, ?_⟩
          · rw [hδ2, hδ1, htr1]; simp
          · simp only [List.all_append, hall1, ha1, ha2]; rfl
        | ok u =>
          cases u
          rw [Build_success_eq hP hD hT hB]
          dsimp only
          obtain ⟨δ3, hδ3, ha3⟩ := Cleanup_trace env
            { s3 with trace := s3.trace ++ [Event.BuildImage { Name := s3.req.Tag, Stdin := t }] }
          have hwd4 : ({ s3 with trace := s3.trace ++ [Event.BuildImage { Name := s3.req.Tag, Stdin := t }] } : RunState).req.WorkingDir = d := by
            dsimp only; rw [h3req, h2req, hwd1]
          rw [hwd4] at ha3
          refine ⟨t2 ++ δ1 ++ δ2 ++ [Event.BuildImage { Name := s3.req.Tag, Stdin := t }] ++ δ3, ?_, ?_⟩
          · rw [hδ3]; dsimp only; rw [hδ2, hδ1, htr1]; simp
          · simp only [List.all_append, hall1, ha1, ha2, ha3]; rfl

/-- C8 witness: on the all-success git-request run the trace starts
with pull, temp-dir creation and the single `SetWorkingDir`, and the
tail assigns nothing and reads only `/tmp/sti001`. -/
theorem claim8_witness :
    okEnv.CreateWorkingDirectory = .ok "/tmp/sti001" ∧
    (initState gitReq).trace = [] ∧
    ∃ t2, (Build okEnv (initState gitReq)).1.trace =
        Event.CheckAndPull "base:latest" :: Event.CreateWorkingDirectory ::
          Event.SetWorkingDir "/tmp/sti001" :: t2 ∧
      t2.all (fun e => !(Event.isSetWD e) && Event.usesDir "/tmp/sti001" e) = true :=
  ⟨rfl, rfl, claim8_workingdir_once okEnv (initState gitReq) "/tmp/sti001" rfl rfl⟩

end OnBuild

namespace OnBuild

theorem Build_total (env : Env) (s : RunState) :
    ((Build env s).2.1.isSome ∧ (Build env s).2.2 = none) ∨
    ((Build env s).2.1 = none ∧ (Build env s).2.2.isSome) := by
  unfold Build
  (repeat' split) <;> dsimp only <;> (repeat' split) <;> simp

theorem Build_err_inv {env : Env} {s : RunState} {e : String}
    (h : (Build env s).2.2 = some e) :
    (∃ s1, Prepare env s = (s1, some e) ∧ Build env s = (s1, none, some e)) ∨
    (∃ s1 s2, Prepare env s = (s1, none) ∧ CreateDockerfile env s1 = (s2, some e) ∧
      Build env s = (s2, none, some e)) ∨
    (∃ s1 s2 s3, Prepare env s = (s1, none) ∧ CreateDockerfile env s1 = (s2, none) ∧
      SourceTar env s2 = (s3, .error e) ∧ Build env s = (s3, none, some e)) ∨
    (∃ s1 s2 s3 t, Prepare env s = (s1, none) ∧ CreateDockerfile env s1 = (s2, none) ∧
      SourceTar env s2 = (s3, .ok t) ∧
      env.BuildImage { Name := s3.req.Tag, Stdin := t } = .error e ∧
      Build env s = ({ s3 with trace := s3.trace ++ [Event.BuildImage { Name := s3.req.Tag, Stdin := t }] },
        none, some e)) := by
  rcases hP : Prepare env s with ⟨s1, e1⟩
  cases e1 with
  | some e' =>
    have hEq := Build_prepare_error hP
    rw [hEq] at h
    dsimp only at h
    obtain rfl := Option.some.inj h
    exact Or.inl ⟨s1, rfl, hEq⟩
  | none =>
    rcases hD : CreateDockerfile env s1 with ⟨s2, e2⟩
    cases e2 with
    | some e' =>
      have hEq := Build_dockerfile_error hP hD
      rw [hEq] at h
      dsimp only at h
      obtain rfl := Option.some.inj h
      exact Or.inr (Or.inl ⟨s1, s2, rfl, hD, hEq⟩)
    | none =>
      rcases hT : SourceTar env s2 with ⟨s3, r3⟩
      cases r3 with
      | error e' =>
        have hEq := Build_tar_error hP hD hT
        rw [hEq] at h
        dsimp only at h
        obtain rfl := Option.some.inj h
        exact Or.inr (Or.inr (Or.inl ⟨s1, s2, s3, rfl, hD, hT, hEq⟩))
      | ok t =>
        cases hB : env.BuildImage { Name := s3.req.Tag, Stdin := t } with
        | error e' =>
          have hEq := Build_image_error hP hD hT hB
          rw [hEq] at h
          dsimp only at h
          obtain rfl := Option.some.inj h
          exact Or.inr (Or.inr (Or.inr ⟨s1, s2, s3, t, rfl, hD, hT, hB, hEq⟩))
        | ok u =>
          cases u
          have hEq := Build_success_eq hP hD hT hB
          rw [hEq] at h
          dsimp only at h
          exact absurd h (by simp)

end OnBuild

namespace OnBuild

theorem Build_err_remove_count {env : Env} {s : RunState} {e : String}
    (h : (Build env s).2.2 = some e) :
    (Build env s).1.trace.countP (Event.isRemove ·) = s.trace.countP (Event.isRemove ·) := by
  rcases Build_err_inv h with ⟨s1, hP, hEq⟩ | ⟨s1, s2, hP, hD, hEq⟩ |
      ⟨s1, s2, s3, hP, hD, hT, hEq⟩ | ⟨s1, s2, s3, t, hP, hD, hT, hB, hEq⟩
  · have c1 := Prepare_remove_count env s; rw [hP] at c1
    rw [hEq]; exact c1
  · have c1 := Prepare_remove_count env s; rw [hP] at c1
    have c2 := CreateDockerfile_remove_count env s1; rw [hD] at c2
    rw [hEq]; dsimp only; dsimp only at c1 c2; rw [c2, c1]
  · have c1 := Prepare_remove_count env s; rw [hP] at c1
    have c2 := CreateDockerfile_remove_count env s1; rw [hD] at c2
    have c3 := SourceTar_remove_count env s2; rw [hT] at c3
    rw [hEq]; dsimp only; dsimp only at c1 c2 c3; rw [c3, c2, c1]
  · have c1 := Prepare_remove_count env s; rw [hP] at c1
    have c2 := CreateDockerfile_remove_count env s1; rw [hD] at c2
    have c3 := SourceTar_remove_count env s2; rw [hT] at c3
    rw [hEq]; dsimp only; dsimp only at c1 c2 c3
    rw [List.countP_append, c3, c2, c1]
    simp [Event.isRemove]

theorem Build_err_dirs {env : Env} {s : RunState} {e d : String}
    (h : (Build env s).2.2 = some e)
    (hd : env.CreateWorkingDirectory = .ok d) :
    d ∈ (Build env s).1.dirs := by
  rcases Build_err_inv h with ⟨s1, hP, hEq⟩ | ⟨s1, s2, hP, hD, hEq⟩ |
      ⟨s1, s2, s3, hP, hD, hT, hEq⟩ | ⟨s1, s2, s3, t, hP, hD, hT, hB, hEq⟩
  · have d1 : s1.dirs = d :: s.dirs := by
      have := Prepare_dirs_ok s hd; rw [hP] at this; exact this
    rw [hEq]; dsimp only; rw [d1]; simp
  · have d1 : s1.dirs = d :: s.dirs := by
      have := Prepare_dirs_ok s hd; rw [hP] at this; exact this
    have d2 : s2.dirs = s1.dirs := by
      have := CreateDockerfile_dirs env s1; rw [hD] at this; exact this
    rw [hEq]; dsimp only; rw [d2, d1]; simp
  · have d1 : s1.dirs = d :: s.dirs := by
      have := Prepare_dirs_ok s hd; rw [hP] at this; exact this
    have d2 : s2.dirs = s1.dirs := by
      have := CreateDockerfile_dirs env s1; rw [hD] at this; exact this
    have d3 : s3.dirs = s2.dirs := by
      have := SourceTar_dirs env s2; rw [hT] at this; exact this
    rw [hEq]; dsimp only; rw [d3, d2, d1]; simp
  · have d1 : s1.dirs = d :: s.dirs := by
      have := Prepare_dirs_ok s hd; rw [hP] at this; exact this
    have d2 : s2.dirs = s1.dirs := by
      have := CreateDockerfile_dirs env s1; rw [hD] at this; exact this
    have d3 : s3.dirs = s2.dirs := by
      have := SourceTar_dirs env s2; rw [hT] at this; exact this
    rw [hEq]; dsimp only; rw [d3, d2, d1]; simp

theorem Build_success_preserve_state {env : Env} {s : RunState} {r : Result}
    (h : (Build env s).2.1 = some r) (hPr : s.req.PreserveWorkingDir = true) :
    (Build env s).1.trace.countP (Event.isRemove ·) = s.trace.countP (Event.isRemove ·) ∧
    (∀ d, env.CreateWorkingDirectory = .ok d → d ∈ (Build env s).1.dirs) := by
  obtain ⟨s1, s2, s3, t, hP, hD, hT, hB, hEq, hr⟩ := Build_some_inv h
  have h1 : s1.req = { s.req with WorkingDir := s1.req.WorkingDir } := by
    have := Prepare_req env s; rw [hP] at this; exact this
  have h2 : s2.req = s1.req := by
    have := CreateDockerfile_req env s1; rw [hD] at this; exact this
  have h3 : s3.req = s2.req := by
    have := SourceTar_req env s2; rw [hT] at this; exact this
  have hPr4 : ({ s3 with trace := s3.trace ++ [Event.BuildImage { Name := s3.req.Tag, Stdin := t }] } : RunState).req.PreserveWorkingDir = true := by
    dsimp only; rw [h3, h2, h1]; exact hPr
  have hcl := Cleanup_preserve env hPr4
  constructor
  · have c1 := Prepare_remove_count env s; rw [hP] at c1
    have c2 := CreateDockerfile_remove_count env s1; rw [hD] at c2
    have c3 := SourceTar_remove_count env s2; rw [hT] at c3
    rw [hEq]; dsimp only; rw [hcl]; dsimp only; dsimp only at c1 c2 c3
    rw [List.countP_append, c3, c2, c1]
    simp [Event.isRemove]
  · intro d hd
    have d1 : s1.dirs = d :: s.dirs := by
      have := Prepare_dirs_ok s hd; rw [hP] at this; exact this
    have d2 : s2.dirs = s1.dirs := by
      have := CreateDockerfile_dirs env s1; rw [hD] at this; exact this
    have d3 : s3.dirs = s2.dirs := by
      have := SourceTar_dirs env s2; rw [hT] at this; exact this
    rw [hEq]; dsimp only; rw [hcl]; dsimp only; rw [d3, d2, d1]; simp

theorem Build_success_remove {env : Env} {s : RunState} {r : Result}
    (h : (Build env s).2.1 = some r) (hPr : s.req.PreserveWorkingDir = false) :
    Event.RemoveDirectory (Build env s).1.req.WorkingDir ∈ (Build env s).1.trace := by
  obtain ⟨s1, s2, s3, t, hP, hD, hT, hB, hEq, hr⟩ := Build_some_inv h
  have h1 : s1.req = { s.req with WorkingDir := s1.req.WorkingDir } := by
    have := Prepare_req env s; rw [hP] at this; exact this
  have h2 : s2.req = s1.req := by
    have := CreateDockerfile_req env s1; rw [hD] at this; exact this
  have h3 : s3.req = s2.req := by
    have := SourceTar_req env s2; rw [hT] at this; exact this
  have hPr4 : ({ s3 with trace := s3.trace ++ [Event.BuildImage { Name := s3.req.Tag, Stdin := t }] } : RunState).req.PreserveWorkingDir = false := by
    dsimp only; rw [h3, h2, h1]; exact hPr
  obtain ⟨hct, _, _⟩ := Cleanup_noPreserve env hPr4
  rw [hEq]; dsimp only
  rw [Cleanup_req, hct]
  dsimp only
  simp

/-- C1, amended: with `preserveWorkingDir = true` no removal is ever
invoked and the created working directory still exists after `Build`
returns; with `preserveWorkingDir = false` removal of
`request.WorkingDir` is invoked exactly when `Build` returns a success
result — on an error return from any phase `Cleanup` is never reached,
no removal is invoked and the working directory is left behind. -/
theorem claim1_cleanup_amended (env : Env) (s : RunState) :
    (s.req.PreserveWorkingDir = true →
      (Build env s).1.trace.countP (Event.isRemove ·) = s.trace.countP (Event.isRemove ·) ∧
      (∀ d, env.CreateWorkingDirectory = .ok d → d ∈ (Build env s).1.dirs)) ∧
    (s.req.PreserveWorkingDir = false →
      (∀ r, (Build env s).2.1 = some r →
        Event.RemoveDirectory (Build env s).1.req.WorkingDir ∈ (Build env s).1.trace) ∧
      (∀ e, (Build env s).2.2 = some e →
        (Build env s).1.trace.countP (Event.isRemove ·) = s.trace.countP (Event.isRemove ·))) := by
  constructor
  · intro hPr
    rcases Build_total env s with ⟨hs, hn⟩ | ⟨hn, hs⟩
    · obtain ⟨r, hr⟩ := Option.isSome_iff_exists.1 hs
      exact Build_success_preserve_state hr hPr
    · obtain ⟨e, he⟩ := Option.isSome_iff_exists.1 hs
      exact ⟨Build_err_remove_count he, fun d hd => Build_err_dirs he hd⟩
  · intro hPr
    exact ⟨fun r hr => Build_success_remove hr hPr, fun e he => Build_err_remove_count he⟩

end OnBuild

namespace OnBuild

/-- The local request asking for its working directory to be kept. -/
def preserveReq : Request := { localReq with PreserveWorkingDir := true }

/-- C1, counterexample: with `preserveWorkingDir = false` and a failing
engine build call, `Build` returns the error without ever invoking the
removal of the working directory, which still exists afterwards —
refuting the claim that the directory is removed regardless of whether
`Build` returns an error. -/
theorem claim1_cleanup_counterexample :
    localReq.PreserveWorkingDir = false ∧
    (Build buildFailEnv (initState localReq)).2.2 = some "build error" ∧
    (Build buildFailEnv (initState localReq)).1.trace.countP (Event.isRemove ·) = 0 ∧
    "/tmp/sti001" ∈ (Build buildFailEnv (initState localReq)).1.dirs :=
  ⟨rfl, rfl, rfl, by decide⟩

/-- C1 witness: preserving run keeps the directory and never removes;
non-preserving successful run has the removal in its trace. -/
theorem claim1_cleanup_witness :
    (initState preserveReq).req.PreserveWorkingDir = true ∧
    (Build okEnv (initState preserveReq)).1.trace.countP (Event.isRemove ·) =
      (initState preserveReq).trace.countP (Event.isRemove ·) ∧
    "/tmp/sti001" ∈ (Build okEnv (initState preserveReq)).1.dirs ∧
    (initState localReq).req.PreserveWorkingDir = false ∧
    Event.RemoveDirectory (Build okEnv (initState localReq)).1.req.WorkingDir
      ∈ (Build okEnv (initState localReq)).1.trace := by
  have h1 := (claim1_cleanup_amended okEnv (initState preserveReq)).1 rfl
  have h2 := (claim1_cleanup_amended okEnv (initState localReq)).2 rfl
  exact ⟨rfl, h1.1, h1.2 "/tmp/sti001" rfl, rfl, h2.1 _ rfl⟩

end OnBuild
